import Mathlib

/-!
Shallow embedding of the image-processor orchestration code
(`ImageProcessor` React component and its helpers) for checking the
natural-language specification against the source.

The embedding models:
* `processImage` — the retry/backoff recursion around the external
  fetch + background-removal call (source lines 70-116);
* `handleSingleProcess` — the single-item episode that records the result
  (source lines 179-216);
* `handleImageUpload` — intake with validation and compression
  (source lines 119-176);
* `handleBulkProcess` — the batched runner: its wave structure, status
  updates and progress reporting (source lines 219-266).

External collaborators (fetch + removeBackground, imageCompression) are
modelled as oracles: a function giving the outcome of each call.  Machine
integers in the source are JavaScript numbers used only as small counters
and byte sizes, modelled as `Nat`.
-/

namespace Editor1222

/-- Job status, from the `ProcessedImage.status` union type in the source. -/
inductive Status where
  | pending
  | processing
  | completed
  | failed
deriving DecidableEq

/-- The `ProcessedImage` record of the source.  `original`, `preview` and
`processed` are opaque object-URL handles, modelled as strings;
`processed = none` models the `null` result handle. -/
structure Img where
  original : String
  preview : String
  processed : Option String
  name : String
  status : Status
  retries : Nat
deriving DecidableEq

/-- `SETTINGS.upload.maxSize` (10 MB). -/
def uploadMaxSize : Nat := 10 * 1024 * 1024

/-- `SETTINGS.upload.types`. -/
def uploadTypes : List String := ["image/jpeg", "image/png", "image/webp"]

/-- `SETTINGS.processing.maxRetries`. -/
def maxRetries : Nat := 3

/-- `SETTINGS.processing.retryDelay` (the backoff base, in milliseconds). -/
def retryDelay : Nat := 1000

/-- `SETTINGS.processing.batchSize` (the bulk concurrency limit). -/
def batchSize : Nat := 2

/-- Outcome of one external fetch + `removeBackground` call: either the
object URL produced for the result blob, or a thrown error carrying its
`error.name` string. -/
inductive TxOutcome where
  | ok (url : String)
  | err (errName : String)
deriving DecidableEq

/-- An external call as issued by the source, with an optional cancellation
signal (`some aborted` models passing `controller.signal`; `none` models a
call issued with no signal attached).  A call whose attached signal is
already aborted rejects with an `AbortError`; otherwise the call's own
behavior decides.  In the source neither `fetch(imageUrl)` (line 83) nor
`removeBackground(imageBlob, {...})` (line 87) is given a signal, so every
call site below instantiates `signal` with `none`. -/
def invokeExternal (signal : Option Bool) (behavior : TxOutcome) : TxOutcome :=
  match signal with
  | some true => TxOutcome.err "AbortError"
  | _ => behavior

/-- Observable events of one `processImage` episode: aborting the previous
shared controller (and installing a fresh one), issuing the external
transform call for a given `retryCount`, and awaiting a backoff delay. -/
inductive Ev where
  | abortPrev
  | call (retryCount : Nat)
  | delay (ms : Nat)
deriving DecidableEq

/-- Result of `processImage`: resolved with a URL, resolved with the
original `imageUrl` on the `AbortError` branch (the source's cancellation
path), or rejected with an error message. -/
inductive PiRes where
  | ok (url : String)
  | cancelled (url : String)
  | failed (errName : String)
deriving DecidableEq

/-- The recursion of `processImage` (source lines 70-116), made structural
on `fuel = maxRetries - retryCount`; the entry point `processImage` below
starts it with `fuel = maxRetries`, `retryCount = 0`, so `fuel = 0` holds
exactly when the source's entry guard `retryCount >= maxRetries` throws
`'Max retries exceeded'`.  Each attempt aborts the previous shared
controller and installs a new one, then issues the external call with no
signal attached (`invokeExternal none`).  On an error named `AbortError`
the source returns the original `imageUrl`; on any other error it awaits
`retryDelay * 2 ^ retryCount` and recurses with `retryCount + 1` (the
source's re-check `retryCount < maxRetries` before retrying is always true
under the entry guard, so its dead `throw` branch has no counterpart
here).  The oracle `transform k` gives the combined outcome of the fetch
and background-removal call of attempt `k`. -/
def processGo (transform : Nat → TxOutcome) (imageUrl : String) :
    Nat → Nat → List Ev × PiRes
  | 0, _ => ([], PiRes.failed "Max retries exceeded")
  | fuel + 1, retryCount =>
    match invokeExternal none (transform retryCount) with
    | TxOutcome.ok url => ([Ev.abortPrev, Ev.call retryCount], PiRes.ok url)
    | TxOutcome.err errName =>
      if errName = "AbortError" then
        ([Ev.abortPrev, Ev.call retryCount], PiRes.cancelled imageUrl)
      else
        let r := processGo transform imageUrl fuel (retryCount + 1)
        (Ev.abortPrev :: Ev.call retryCount ::
          Ev.delay (retryDelay * 2 ^ retryCount) :: r.1, r.2)

/-- `processImage(imageUrl)` with the default `retryCount = 0`. -/
def processImage (transform : Nat → TxOutcome) (imageUrl : String) :
    List Ev × PiRes :=
  processGo transform imageUrl maxRetries 0

/-- How the caller of `processImage` sees its result: the `AbortError`
branch `return imageUrl` is an ordinary resolution, indistinguishable from
success; only a thrown error is an error. -/
def toCaller : PiRes → Except String String
  | PiRes.ok url => Except.ok url
  | PiRes.cancelled url => Except.ok url
  | PiRes.failed errName => Except.error errName

/-- `handleSingleProcess` (source lines 179-216), restricted to the state
of the processed job: on a resolved `processImage` the job gets
`processed := processedUrl`, `status := 'completed'`; on a rejection it
gets `status := 'failed'` with `processed` untouched. -/
def handleSingleProcess (transform : Nat → TxOutcome) (img : Img) : Img :=
  match toCaller (processImage transform img.original).2 with
  | Except.ok url => { img with processed := some url, status := Status.completed }
  | Except.error _ => { img with status := Status.failed }

/-- Number of external transform calls in an episode trace. -/
def countCalls (tr : List Ev) : Nat :=
  tr.countP fun e => match e with | Ev.call _ => true | _ => false

/-- The backoff delays awaited in an episode trace, in order. -/
def delaysOf (tr : List Ev) : List Nat :=
  tr.filterMap fun e => match e with | Ev.delay d => some d | _ => none

/-- A transform outcome that is a retryable failure: an error whose name is
not `AbortError` (the source retries every caught error except
`AbortError`). -/
def retryableFail : TxOutcome → Bool
  | TxOutcome.ok _ => false
  | TxOutcome.err errName => !(errName == "AbortError")

/-- Whether a `processImage` result came from the `AbortError` branch. -/
def isCancelled : PiRes → Bool
  | PiRes.cancelled _ => true
  | _ => false

/-- A fresh job as produced by intake, used as a concrete test subject. -/
def initialJob : Img :=
  { original := "url:src", preview := "url:prev", processed := none,
    name := "src.png", status := Status.pending, retries := 0 }

/- ### Unfolding lemmas for the retry recursion -/

theorem processGo_ok (t : Nat → TxOutcome) (u : String) (fuel k : Nat) (url : String)
    (ht : t k = TxOutcome.ok url) :
    processGo t u (fuel + 1) k = ([Ev.abortPrev, Ev.call k], PiRes.ok url) := by
  simp [processGo, invokeExternal, ht]

theorem processGo_abort (t : Nat → TxOutcome) (u : String) (fuel k : Nat)
    (ht : t k = TxOutcome.err "AbortError") :
    processGo t u (fuel + 1) k = ([Ev.abortPrev, Ev.call k], PiRes.cancelled u) := by
  simp [processGo, invokeExternal, ht]

theorem processGo_retry (t : Nat → TxOutcome) (u : String) (fuel k : Nat) (n : String)
    (ht : t k = TxOutcome.err n) (hn : n ≠ "AbortError") :
    processGo t u (fuel + 1) k =
      (Ev.abortPrev :: Ev.call k :: Ev.delay (retryDelay * 2 ^ k) ::
        (processGo t u fuel (k + 1)).1, (processGo t u fuel (k + 1)).2) := by
  simp [processGo, invokeExternal, ht, hn]

theorem processGo_stop (t : Nat → TxOutcome) (u : String) (k : Nat) :
    processGo t u 0 k = ([], PiRes.failed "Max retries exceeded") := rfl

theorem retryableFail_shape (o : TxOutcome) (h : retryableFail o = true) :
    ∃ n, o = TxOutcome.err n ∧ n ≠ "AbortError" := by
  cases o with
  | ok url => simp [retryableFail] at h
  | err n =>
    refine ⟨n, rfl, ?_⟩
    simpa [retryableFail] using h

/-- The i-th awaited backoff of an episode (counting from 0, starting at
`retryCount = k`) is `retryDelay * 2 ^ (k + i)`, and at most `fuel` many
backoffs are awaited. -/
theorem delaysOf_processGo (t : Nat → TxOutcome) (u : String) :
    ∀ (fuel k j d : Nat),
      (delaysOf (processGo t u fuel k).1)[j]? = some d →
      d = retryDelay * 2 ^ (k + j) ∧ j < fuel := by
  intro fuel
  induction fuel with
  | zero =>
    intro k j d h
    simp [processGo, delaysOf] at h
  | succ f ih =>
    intro k j d h
    cases ht : t k with
    | ok url =>
      rw [processGo_ok t u f k url ht] at h
      simp [delaysOf] at h
    | err n =>
      by_cases hn : n = "AbortError"
      · subst hn
        rw [processGo_abort t u f k ht] at h
        simp [delaysOf] at h
      · rw [processGo_retry t u f k n ht hn] at h
        simp only [delaysOf, List.filterMap_cons] at h
        cases j with
        | zero =>
          simp at h
          exact ⟨by simpa using h.symm, Nat.succ_pos f⟩
        | succ j' =>
          simp only [List.getElem?_cons_succ] at h
          have := ih (k + 1) j' d h
          refine ⟨?_, by omega⟩
          have heq : k + 1 + j' = k + (j' + 1) := by omega
          rw [← heq]
          exact this.1

/- ### Claims about the retry episode (C1, C2, C3, C7, C9, C10) -/

/-- Claim C3: for a Job whose transform collaborator always fails with a
retryable (non-cancellation) error and `maxRetries = 3`, the episode makes
exactly 3 transform calls, issues no 4th call, and the Job ends `Failed`.
Confirmed: attempts 0, 1 and 2 each fail and back off; the recursive call
with `retryCount = 3` hits the entry guard and throws without calling, and
`handleSingleProcess` marks the job failed. -/
theorem retry_cap_exactly_three_calls (t : Nat → TxOutcome) (img : Img)
    (h : ∀ k, retryableFail (t k) = true) :
    countCalls (processImage t img.original).1 = 3 ∧
    Ev.call 3 ∉ (processImage t img.original).1 ∧
    (handleSingleProcess t img).status = Status.failed := by
  obtain ⟨n0, e0, hn0⟩ := retryableFail_shape _ (h 0)
  obtain ⟨n1, e1, hn1⟩ := retryableFail_shape _ (h 1)
  obtain ⟨n2, e2, hn2⟩ := retryableFail_shape _ (h 2)
  have s2 : processGo t img.original 1 2 =
      ([Ev.abortPrev, Ev.call 2, Ev.delay (retryDelay * 2 ^ 2)],
       PiRes.failed "Max retries exceeded") := by
    have := processGo_retry t img.original 0 2 n2 e2 hn2
    simpa [processGo_stop] using this
  have s1 : processGo t img.original 2 1 =
      ([Ev.abortPrev, Ev.call 1, Ev.delay (retryDelay * 2 ^ 1),
        Ev.abortPrev, Ev.call 2, Ev.delay (retryDelay * 2 ^ 2)],
       PiRes.failed "Max retries exceeded") := by
    have := processGo_retry t img.original 1 1 n1 e1 hn1
    simpa [s2] using this
  have s0 : processImage t img.original =
      ([Ev.abortPrev, Ev.call 0, Ev.delay (retryDelay * 2 ^ 0),
        Ev.abortPrev, Ev.call 1, Ev.delay (retryDelay * 2 ^ 1),
        Ev.abortPrev, Ev.call 2, Ev.delay (retryDelay * 2 ^ 2)],
       PiRes.failed "Max retries exceeded") := by
    have := processGo_retry t img.original 2 0 n0 e0 hn0
    simpa [processImage, maxRetries, s1] using this
  refine ⟨?_, ?_, ?_⟩
  · rw [s0]; decide
  · rw [s0]; decide
  · simp [handleSingleProcess, s0, toCaller]

/-- Witness for C3 at the concrete always-failing collaborator. -/
theorem retry_cap_exactly_three_calls_witness :
    countCalls (processImage (fun _ => TxOutcome.err "TransformError") initialJob.original).1 = 3 ∧
    Ev.call 3 ∉ (processImage (fun _ => TxOutcome.err "TransformError") initialJob.original).1 ∧
    (handleSingleProcess (fun _ => TxOutcome.err "TransformError") initialJob).status =
      Status.failed :=
  retry_cap_exactly_three_calls (fun _ => TxOutcome.err "TransformError") initialJob
    (fun _ => rfl)

/-- Claim C7: the i-th backoff awaited in an episode (the delay before
attempt `i + 1`) equals `retryDelay * 2 ^ i`, and backoffs happen only for
`i` in `[0, maxRetries)`.  Confirmed from the
`setTimeout(resolve, retryDelay * Math.pow(2, retryCount))` line. -/
theorem backoff_delay_exponential (t : Nat → TxOutcome) (u : String) (k d : Nat)
    (h : (delaysOf (processImage t u).1)[k]? = some d) :
    d = retryDelay * 2 ^ k ∧ k < maxRetries := by
  have := delaysOf_processGo t u maxRetries 0 k d h
  simpa using this

/-- Witness for C7: the second backoff of an always-failing episode is
2000 ms = `retryDelay * 2 ^ 1`. -/
theorem backoff_delay_exponential_witness :
    (delaysOf (processImage (fun _ => TxOutcome.err "TransformError") "url:src").1)[1]? =
      some 2000 ∧
    (2000 = retryDelay * 2 ^ 1 ∧ 1 < maxRetries) :=
  ⟨by decide,
   backoff_delay_exponential (fun _ => TxOutcome.err "TransformError") "url:src" 1 2000
     (by decide)⟩

/-- Oracle for spec Scenario B: the transform fails twice with a retryable
error, then succeeds. -/
def demoTransformB : Nat → TxOutcome := fun k =>
  if k < 2 then TxOutcome.err "TransformError" else TxOutcome.ok "url:done"

/-- Amended claim C9: with `maxRetries = 3` and a collaborator that fails
twice then succeeds, the episode makes exactly 3 transform calls and the
Job ends `Completed` with the new result — but the retry count is only the
local `retryCount` parameter of `processImage`; the Job's `retries` field
is never written by any code path, so the recorded counter stays at its
intake value (0), not 2. -/
theorem two_failures_then_success_completes (t : Nat → TxOutcome) (img : Img)
    (n0 n1 url : String)
    (e0 : t 0 = TxOutcome.err n0) (hn0 : n0 ≠ "AbortError")
    (e1 : t 1 = TxOutcome.err n1) (hn1 : n1 ≠ "AbortError")
    (e2 : t 2 = TxOutcome.ok url) :
    countCalls (processImage t img.original).1 = 3 ∧
    Ev.call 3 ∉ (processImage t img.original).1 ∧
    (handleSingleProcess t img).status = Status.completed ∧
    (handleSingleProcess t img).processed = some url ∧
    (handleSingleProcess t img).retries = img.retries := by
  have s2 : processGo t img.original 1 2 = ([Ev.abortPrev, Ev.call 2], PiRes.ok url) := by
    have := processGo_ok t img.original 0 2 url e2
    simpa using this
  have s1 : processGo t img.original 2 1 =
      ([Ev.abortPrev, Ev.call 1, Ev.delay (retryDelay * 2 ^ 1),
        Ev.abortPrev, Ev.call 2], PiRes.ok url) := by
    have := processGo_retry t img.original 1 1 n1 e1 hn1
    simpa [s2] using this
  have s0 : processImage t img.original =
      ([Ev.abortPrev, Ev.call 0, Ev.delay (retryDelay * 2 ^ 0),
        Ev.abortPrev, Ev.call 1, Ev.delay (retryDelay * 2 ^ 1),
        Ev.abortPrev, Ev.call 2], PiRes.ok url) := by
    have := processGo_retry t img.original 2 0 n0 e0 hn0
    simpa [processImage, maxRetries, s1] using this
  refine ⟨?_, ?_, ?_, ?_, ?_⟩
  · rw [s0]
    show countCalls [Ev.abortPrev, Ev.call 0, Ev.delay (retryDelay * 2 ^ 0),
      Ev.abortPrev, Ev.call 1, Ev.delay (retryDelay * 2 ^ 1), Ev.abortPrev, Ev.call 2] = 3
    decide
  · rw [s0]
    show Ev.call 3 ∉ [Ev.abortPrev, Ev.call 0, Ev.delay (retryDelay * 2 ^ 0),
      Ev.abortPrev, Ev.call 1, Ev.delay (retryDelay * 2 ^ 1), Ev.abortPrev, Ev.call 2]
    decide
  · simp [handleSingleProcess, s0, toCaller]
  · simp [handleSingleProcess, s0, toCaller]
  · simp [handleSingleProcess, s0, toCaller]

/-- Witness for the amended C9 at the concrete Scenario-B collaborator. -/
theorem two_failures_then_success_completes_witness :
    countCalls (processImage demoTransformB initialJob.original).1 = 3 ∧
    Ev.call 3 ∉ (processImage demoTransformB initialJob.original).1 ∧
    (handleSingleProcess demoTransformB initialJob).status = Status.completed ∧
    (handleSingleProcess demoTransformB initialJob).processed = some "url:done" ∧
    (handleSingleProcess demoTransformB initialJob).retries = initialJob.retries :=
  two_failures_then_success_completes demoTransformB initialJob
    "TransformError" "TransformError" "url:done"
    rfl (by decide) rfl (by decide) rfl

/-- Counterexample to C9 as stated: after the fails-twice-then-succeeds
episode the Job's recorded `retries` field is 0, not 2 — no code path ever
updates it. -/
theorem attempt_counter_not_recorded :
    (handleSingleProcess demoTransformB initialJob).retries = 0 ∧
    ¬ (handleSingleProcess demoTransformB initialJob).retries = 2 := by
  exact ⟨by decide, by decide⟩

/-- Claim C1 fails on the code: when the transform call observes an
`AbortError`, `processImage` resolves with the original (unprocessed)
`imageUrl` as if it were a successful result, and `handleSingleProcess`
records it: the job is marked `completed` with `processed` set to the
original source URL — it does not revert to `pending`, and a result is
recorded. -/
theorem cancel_path_marks_completed :
    (processImage (fun _ => TxOutcome.err "AbortError") initialJob.original).2 =
      PiRes.cancelled initialJob.original ∧
    (handleSingleProcess (fun _ => TxOutcome.err "AbortError") initialJob).status =
      Status.completed ∧
    (handleSingleProcess (fun _ => TxOutcome.err "AbortError") initialJob).processed =
      some initialJob.original := by
  exact ⟨by decide, by decide, by decide⟩

/-- Whether a result from `processImage` came from the cancellation branch
(`error.name === 'AbortError'`). -/
theorem processGo_not_cancelled (t : Nat → TxOutcome) (u : String)
    (h : ∀ k, t k ≠ TxOutcome.err "AbortError") :
    ∀ fuel k, isCancelled (processGo t u fuel k).2 = false := by
  intro fuel
  induction fuel with
  | zero => intro k; simp [processGo, isCancelled]
  | succ f ih =>
    intro k
    cases ht : t k with
    | ok url => simp [processGo_ok t u f k url ht, isCancelled]
    | err n =>
      have hn : n ≠ "AbortError" := fun e => h k (e ▸ ht)
      rw [processGo_retry t u f k n ht hn]
      exact ih (k + 1)

/-- Claim C10: the shared controller's signal is never attached to the
fetch of the source image or to the background-removal call (both call
sites pass `invokeExternal none`, mirroring `fetch(imageUrl)` and
`removeBackground(imageBlob, {...})` issued without a signal), so an
unsignalled call is unaffected by any abort of the controller, and the
`AbortError` branch of `processImage` can only run if the external
behavior itself rejects with an `AbortError` — never from the controller's
abort. -/
theorem abort_branch_unreachable_from_controller (t : Nat → TxOutcome) (u : String)
    (b : TxOutcome) (h : ∀ k, t k ≠ TxOutcome.err "AbortError") :
    invokeExternal none b = b ∧ isCancelled (processImage t u).2 = false :=
  ⟨rfl, processGo_not_cancelled t u h maxRetries 0⟩

/-- Witness for C10 at a concrete external behavior. -/
theorem abort_branch_unreachable_witness :
    invokeExternal none (TxOutcome.ok "url:out") = TxOutcome.ok "url:out" ∧
    isCancelled (processImage (fun _ => TxOutcome.ok "url:out") "url:src").2 = false :=
  abort_branch_unreachable_from_controller (fun _ => TxOutcome.ok "url:out") "url:src"
    (TxOutcome.ok "url:out") (fun _ h => nomatch h)

/-- How an episode's settled outcome is written into job state, as done
identically by `handleSingleProcess` (lines 186-201) and by the per-job
callback of `handleBulkProcess` (lines 244-258): a resolution records the
URL and marks the job completed, a rejection marks it failed. -/
def recordOutcome (r : TxOutcome) (im : Img) : Img :=
  match r with
  | TxOutcome.ok url => { im with processed := some url, status := Status.completed }
  | TxOutcome.err _ => { im with status := Status.failed }

/-- Claim C2's failing interleaving, step by step from the source: an
episode E1 for a job issues its transform call (behavior `tOld`); while it
is in flight a second episode E2 for the same job starts (possible because
`handleSingleProcess` only guards on `isProcessing`, not on a bulk run's
episode), `abort()`s the shared controller, installs a fresh one, issues
its own call (`tNew`), resolves, and records its result; then E1's call —
issued with no signal attached, hence unaffected by the abort — resolves
with `tOld` and E1's continuation records it unconditionally, overwriting
the state E2 just wrote. -/
def overlapEpisodes (tOld tNew : TxOutcome) (im : Img) : Img :=
  recordOutcome (invokeExternal none tOld) (recordOutcome (invokeExternal none tNew) im)

/-- Claim C2 fails on the code: the superseded episode's late result is
recorded into job state and overwrites the newer episode's result.  The
second conjunct shows the newer episode had recorded `url:new` before the
stale write. -/
theorem stale_episode_overwrites_new_state :
    (overlapEpisodes (TxOutcome.ok "url:old") (TxOutcome.ok "url:new") initialJob).processed =
      some "url:old" ∧
    (recordOutcome (invokeExternal none (TxOutcome.ok "url:new")) initialJob).processed =
      some "url:new" := by
  exact ⟨rfl, rfl⟩

/- ### Intake (`handleImageUpload`, source lines 119-176) -/

/-- The fields of a `File` that intake looks at. -/
structure FileM where
  fname : String
  ftype : String
  fsize : Nat
deriving DecidableEq

/-- The intake validation filter of the source:
`SETTINGS.upload.types.includes(file.type) && file.size <= SETTINGS.upload.maxSize`. -/
def validFile (f : FileM) : Bool :=
  uploadTypes.contains f.ftype && decide (f.fsize ≤ uploadMaxSize)

/-- The job record built for one accepted input: `original` is the object
URL of the compressed file, `preview` the object URL of the raw file
(object URLs are opaque handles, modelled as tagged strings). -/
def mkImgOf (f c : FileM) : Img :=
  { original := "url:" ++ c.fname, preview := "url:" ++ f.fname, processed := none,
    name := f.fname, status := Status.pending, retries := 0 }

/-- One mapped intake callback: compress the file (oracle `compress`,
`none` models a thrown compression error) and build the pending job. -/
def intakeOne (compress : FileM → Option FileM) (f : FileM) : Option Img :=
  (compress f).map (mkImgOf f)

/-- `Promise.all` over the mapped callbacks: all must succeed, a single
rejection rejects the whole batch. -/
def traverseO (g : α → Option β) : List α → Option (List β)
  | [] => some []
  | a :: as =>
    match g a, traverseO g as with
    | some b, some bs => some (b :: bs)
    | _, _ => none

/-- Observable outcome of `handleImageUpload`: the "Invalid files" toast
(no valid input), the success toast with the appended jobs and its
description string, or the "Upload failed" toast (a compression error;
nothing is appended). -/
inductive UploadOutcome where
  | invalidFiles
  | uploaded (newImages : List Img) (message : String)
  | uploadFailed
deriving DecidableEq

/-- `handleImageUpload` (source lines 119-176): filter the inputs by type
and size, reject the call if none survive, compress every survivor
(`Promise.all`), then append the new jobs and toast
`` `${newImages.length} images uploaded` ``; any compression rejection is
caught and reported as "Upload failed" with nothing appended. -/
def handleImageUpload (compress : FileM → Option FileM) (files : List FileM) :
    UploadOutcome :=
  let validFiles := files.filter validFile
  if validFiles.isEmpty then UploadOutcome.invalidFiles
  else
    match traverseO (intakeOne compress) validFiles with
    | some newImages =>
      UploadOutcome.uploaded newImages (toString newImages.length ++ " images uploaded")
    | none => UploadOutcome.uploadFailed

/-- The toast description reported by an intake outcome. -/
def uploadMessage : UploadOutcome → Option String
  | UploadOutcome.invalidFiles => some "Please select valid image files under 10MB"
  | UploadOutcome.uploaded _ message => some message
  | UploadOutcome.uploadFailed => some "Failed to upload images"

theorem traverseO_length (g : α → Option β) :
    ∀ (l : List α) (res : List β), traverseO g l = some res → res.length = l.length := by
  intro l
  induction l with
  | nil => intro res h; simp [traverseO] at h; simp [← h]
  | cons a as ih =>
    intro res h
    simp only [traverseO] at h
    cases hg : g a with
    | none => rw [hg] at h; simp at h
    | some b =>
      rw [hg] at h
      cases ht : traverseO g as with
      | none => rw [ht] at h; simp at h
      | some bs =>
        rw [ht] at h
        simp at h
        rw [← h]
        simp [ih bs ht]

/-- Scenario A's inputs: three valid images plus one oversized image. -/
def demoFiles : List FileM :=
  [⟨"a.png", "image/png", 1000⟩, ⟨"b.png", "image/png", 1000⟩,
   ⟨"c.png", "image/png", 1000⟩, ⟨"big.png", "image/png", uploadMaxSize + 1⟩]

/-- Amended claim C6: validation failures on individual inputs do not
abort the others — invalid (wrong-type or oversized) inputs are silently
dropped, and when compression succeeds on every surviving input all the
valid inputs are added as pending jobs; but the success report states only
the succeeded count (`N images uploaded`), with no count of rejected
inputs, and a compression failure on any single input aborts the whole
intake (`Promise.all` rejects and nothing is added). -/
theorem intake_keeps_valid_inputs (compress : FileM → Option FileM) (files : List FileM)
    (newImages : List Img)
    (hne : files.filter validFile ≠ [])
    (hall : traverseO (intakeOne compress) (files.filter validFile) = some newImages) :
    handleImageUpload compress files =
      UploadOutcome.uploaded newImages (toString newImages.length ++ " images uploaded") ∧
    newImages.length = (files.filter validFile).length := by
  constructor
  · simp only [handleImageUpload, List.isEmpty_iff]
    rw [if_neg hne, hall]
  · exact traverseO_length _ _ _ hall

/-- Witness for the amended C6 at Scenario A's inputs: the three valid
images are added, the oversized one is dropped, and the toast reads
"3 images uploaded". -/
theorem intake_keeps_valid_inputs_witness :
    handleImageUpload some demoFiles =
      UploadOutcome.uploaded
        [mkImgOf ⟨"a.png", "image/png", 1000⟩ ⟨"a.png", "image/png", 1000⟩,
         mkImgOf ⟨"b.png", "image/png", 1000⟩ ⟨"b.png", "image/png", 1000⟩,
         mkImgOf ⟨"c.png", "image/png", 1000⟩ ⟨"c.png", "image/png", 1000⟩]
        (toString 3 ++ " images uploaded") ∧
    3 = (demoFiles.filter validFile).length :=
  intake_keeps_valid_inputs some demoFiles _ (by decide) rfl

/-- Counterexample to C6 as stated: on 3 valid + 1 oversized inputs the
code's report is the string "3 images uploaded" — it names only the
succeeded count; it is not the claimed "3 succeeded, 1 rejected" summary,
and contains no mention of a rejected count at all. -/
theorem upload_report_omits_rejected_count :
    uploadMessage (handleImageUpload some demoFiles) = some "3 images uploaded" ∧
    uploadMessage (handleImageUpload some demoFiles) ≠ some "3 succeeded, 1 rejected" := by
  exact ⟨rfl, by decide⟩

/- ### Bulk progress reporting (`handleBulkProcess`, source lines 219-266) -/

/-- `Math.round((p / t) * 100)` on natural counts `p ≤ t`:
`floor(100 * p / t + 1 / 2)` as exact rational arithmetic. -/
def jsRound100 (p t : Nat) : Nat := (200 * p + t) / (2 * t)

/-- The sequence of batch-level `setProgress` values emitted while the
bulk run works through its selection in order (the per-job outcome oracle
`res` abstracts the `processImage` call: `some url` resolves, `none`
rejects).  Mirrors the source: `processed++` and
`setProgress(Math.round((processed / pending.length) * 100))` run only in
the success branch; the catch branch emits nothing. -/
def bulkRunEvents (res : String → Option String) :
    List Img → Nat → Nat → List Nat
  | [], _, _ => []
  | im :: rest, processedCount, total =>
    match res im.original with
    | some _ =>
      jsRound100 (processedCount + 1) total ::
        bulkRunEvents res rest (processedCount + 1) total
    | none => bulkRunEvents res rest processedCount total

/-- All progress values of one bulk run over `pendingImgs`, including the
final `setProgress(0)` from the `finally` block. -/
def bulkProgressTrace (res : String → Option String) (pendingImgs : List Img) : List Nat :=
  bulkRunEvents res pendingImgs 0 pendingImgs.length ++ [0]

theorem jsRound100_mono (t : Nat) {p q : Nat} (h : p ≤ q) :
    jsRound100 p t ≤ jsRound100 q t := by
  apply Nat.div_le_div_right
  omega

theorem bulkRunEvents_chain (res : String → Option String) (total : Nat) :
    ∀ (l : List Img) (p : Nat),
      List.Chain' (· ≤ ·) (jsRound100 p total :: bulkRunEvents res l p total) := by
  intro l
  induction l with
  | nil => intro p; simp [bulkRunEvents]
  | cons im rest ih =>
    intro p
    cases hr : res im.original with
    | some url =>
      simp only [bulkRunEvents, hr]
      exact List.Chain'.cons (jsRound100_mono total (Nat.le_succ p)) (ih (p + 1))
    | none =>
      simp only [bulkRunEvents, hr]
      exact ih p

theorem bulkRunEvents_length (res : String → Option String) (total : Nat) :
    ∀ (l : List Img) (p : Nat),
      (bulkRunEvents res l p total).length =
        l.countP (fun im => (res im.original).isSome) := by
  intro l
  induction l with
  | nil => intro p; simp [bulkRunEvents]
  | cons im rest ih =>
    intro p
    cases hr : res im.original with
    | some url => simp [bulkRunEvents, hr, ih, List.countP_cons]
    | none => simp [bulkRunEvents, hr, ih, List.countP_cons]

theorem getLast?_append_single (x : Nat) (l : List Nat) : (l ++ [x]).getLast? = some x := by
  rw [List.getLast?_append_cons]
  rfl

/-- Amended claim C5: during one bulk run, batch-level progress updates
are emitted only after successful job completions (one per success, none
on failure), each reporting `round(100 * succeededSoFar / selectedCount)`;
that update sequence is monotonically non-decreasing; and when the run
settles the `finally` block resets progress to 0 — the trace does not end
at `selectedCount / selectedCount`. -/
theorem bulk_progress_success_only_monotone (res : String → Option String)
    (pendingImgs : List Img) :
    List.Chain' (· ≤ ·) (bulkRunEvents res pendingImgs 0 pendingImgs.length) ∧
    (bulkRunEvents res pendingImgs 0 pendingImgs.length).length =
      pendingImgs.countP (fun im => (res im.original).isSome) ∧
    (bulkProgressTrace res pendingImgs).getLast? = some 0 := by
  refine ⟨?_, bulkRunEvents_length res pendingImgs.length pendingImgs 0, ?_⟩
  · exact (bulkRunEvents_chain res pendingImgs.length pendingImgs 0).tail
  · exact getLast?_append_single 0 _

/-- Counterexample to C5 as stated: a bulk run over a single job whose
processing fails emits no progress update for that completion (the catch
branch updates nothing), and after the run settles the last reported value
is the `finally` reset 0 — not `selectedCount / selectedCount` (100%). -/
theorem failed_batch_progress_not_full :
    bulkRunEvents (fun _ => none) [initialJob] 0 1 = [] ∧
    bulkProgressTrace (fun _ => none) [initialJob] = [0] ∧
    ¬ (bulkProgressTrace (fun _ => none) [initialJob]).getLast? = some (jsRound100 1 1) := by
  refine ⟨rfl, rfl, ?_⟩
  decide

/- ### Result-handle/status invariant across operations (C8) -/

/-- The job-state mutations the source performs on one job: a settled
`handleSingleProcess` episode (lines 186-201), the bulk runner marking a
job `'processing'` (lines 240-241), and a settled bulk episode (lines
244-258).  A resolved episode records the URL and marks the job completed;
a rejected one marks it failed and leaves `processed` untouched.  The mark
is unconditional: the `!img.processed` selection filter runs once, at run
start (line 223), and is not re-checked at mark time, so a bulk run can
mark a job `'processing'` after a concurrent single episode has already
recorded a result into it. -/
inductive JobOp where
  | singleRun (r : Except String String)
  | bulkMark
  | bulkSettle (r : Except String String)

def applyOp (im : Img) : JobOp → Img
  | JobOp.singleRun (Except.ok url) =>
    { im with processed := some url, status := Status.completed }
  | JobOp.singleRun (Except.error _) => { im with status := Status.failed }
  | JobOp.bulkMark => { im with status := Status.processing }
  | JobOp.bulkSettle (Except.ok url) =>
    { im with processed := some url, status := Status.completed }
  | JobOp.bulkSettle (Except.error _) => { im with status := Status.failed }

/-- The job state after a sequence of operations applied to a fresh job. -/
def runOps (ops : List JobOp) : Img := ops.foldl applyOp initialJob

/-- Whether an operation records a successful result. -/
def opSuccess : JobOp → Bool
  | JobOp.singleRun (Except.ok _) => true
  | JobOp.bulkSettle (Except.ok _) => true
  | _ => false

/-- The invariant that actually holds of one job's state.  No conjunct
about `Processing` is included: the unconditional bulk mark can put a job
in `'processing'` while it holds a recorded result. -/
def JobStateInv (im : Img) (ever : Bool) : Prop :=
  (im.status = Status.completed → im.processed.isSome = true) ∧
  (im.status = Status.pending → im.processed = none) ∧
  (im.processed.isSome = ever)

theorem applyOp_preserves (im : Img) (ever : Bool) (op : JobOp)
    (h : JobStateInv im ever) :
    JobStateInv (applyOp im op) (ever || opSuccess op) := by
  obtain ⟨h1, h2, h3⟩ := h
  cases op with
  | singleRun r =>
    cases r with
    | ok url => simp [applyOp, opSuccess, JobStateInv]
    | error e =>
      refine ⟨?_, ?_, ?_⟩ <;> simp [applyOp, opSuccess, h3]
  | bulkMark =>
    refine ⟨?_, ?_, ?_⟩ <;> simp [applyOp, opSuccess, h3]
  | bulkSettle r =>
    cases r with
    | ok url => simp [applyOp, opSuccess, JobStateInv]
    | error e =>
      refine ⟨?_, ?_, ?_⟩ <;> simp [applyOp, opSuccess, h3]

theorem foldl_preserves (ops : List JobOp) :
    ∀ (im : Img) (ever : Bool), JobStateInv im ever →
      JobStateInv (ops.foldl applyOp im) (ops.foldl (fun b op => b || opSuccess op) ever) := by
  induction ops with
  | nil => intro im ever h; simpa using h
  | cons op rest ih =>
    intro im ever h
    simpa using ih (applyOp im op) (ever || opSuccess op) (applyOp_preserves im ever op h)

theorem any_eq_foldl_or (ops : List JobOp) :
    ∀ b : Bool, ops.foldl (fun b op => b || opSuccess op) b = (b || ops.any opSuccess) := by
  induction ops with
  | nil => intro b; simp
  | cons op rest ih => intro b; simp [ih, Bool.or_assoc]

/-- Amended claim C8: for every sequence of job operations the code can
perform, a `Completed` job has a non-null `resultHandle`, a `Pending` job
(one no episode has touched) has none, and the handle is non-null exactly
when some episode has ever succeeded.  The claimed iff with
`status == Completed` fails in both reachable directions: a later failing
episode keeps an earlier result while `status = Failed`, and the bulk
run's unconditional `'processing'` mark (selection is checked only once,
at run start) can leave a job `Processing` while it still holds a result
recorded by a concurrent single episode. -/
theorem result_handle_iff_ever_succeeded (ops : List JobOp) :
    ((runOps ops).status = Status.completed → (runOps ops).processed.isSome = true) ∧
    ((runOps ops).status = Status.pending → (runOps ops).processed = none) ∧
    ((runOps ops).processed.isSome = ops.any opSuccess) := by
  have h0 : JobStateInv initialJob false := by
    refine ⟨?_, ?_, ?_⟩ <;> simp [initialJob, JobStateInv]
  have := foldl_preserves ops initialJob false h0
  rw [any_eq_foldl_or ops false] at this
  simpa [runOps, JobStateInv] using this

/-- Counterexample to C8 as stated.  First: complete a job (recording
"url:done"), then re-process it with a failing episode — the job ends
`failed` while `processed` still holds the earlier result, refuting
"`resultHandle` is non-null iff `status == Completed`".  Second: after a
single episode completes the job, a bulk run's unconditional mark puts it
in `'processing'` with the result still recorded, refuting "a Pending or
Processing Job has no recorded result". -/
theorem failed_job_retains_prior_result :
    (runOps [JobOp.singleRun (Except.ok "url:done"),
             JobOp.singleRun (Except.error "boom")]).status = Status.failed ∧
    (runOps [JobOp.singleRun (Except.ok "url:done"),
             JobOp.singleRun (Except.error "boom")]).processed = some "url:done" ∧
    ¬ ((runOps [JobOp.singleRun (Except.ok "url:done"),
                JobOp.singleRun (Except.error "boom")]).processed ≠ none ↔
       (runOps [JobOp.singleRun (Except.ok "url:done"),
                JobOp.singleRun (Except.error "boom")]).status = Status.completed) ∧
    (runOps [JobOp.singleRun (Except.ok "url:done"),
             JobOp.bulkMark]).status = Status.processing ∧
    (runOps [JobOp.singleRun (Except.ok "url:done"),
             JobOp.bulkMark]).processed = some "url:done" := by
  refine ⟨rfl, rfl, ?_, rfl, rfl⟩
  decide

/- ### Bulk bounded concurrency (`handleBulkProcess`, source lines 219-266) -/

/-- Progress of one wave member's callback inside `Promise.all(batch.map
(...))`: not yet started, after its `setImages(... status: 'processing')`
update, or after its terminal update (completed or failed). -/
inductive WPhase where
  | notStarted
  | processing
  | done
deriving DecidableEq

/-- `setImages(prev => prev.map((x, idx) => idx === index ? g(x) : x))`:
apply `g` at one position, leave every other element unchanged. -/
def updateAt : Nat → (Img → Img) → List Img → List Img
  | _, _, [] => []
  | 0, g, im :: rest => g im :: rest
  | n + 1, g, im :: rest => im :: updateAt n g rest

theorem updateAt_getElem? (g : Img → Img) :
    ∀ (l : List Img) (n j : Nat),
      (updateAt n g l)[j]? = if j = n then (l[j]?).map g else l[j]? := by
  intro l
  induction l with
  | nil => intro n j; simp [updateAt]
  | cons im rest ih =>
    intro n j
    cases n with
    | zero =>
      cases j with
      | zero => simp [updateAt]
      | succ j' => simp [updateAt]
    | succ n' =>
      cases j with
      | zero => simp [updateAt]
      | succ j' =>
        simp only [updateAt, List.getElem?_cons_succ]
        rw [ih n' j']
        by_cases hj : j' = n' <;> simp [hj]

/-- The wave member marking its job `'processing'` (source lines 239-242). -/
def setProcessingAt (i : Nat) (imgs : List Img) : List Img :=
  updateAt i (fun im => { im with status := Status.processing }) imgs

/-- The terminal update of a wave member's callback: the outcome oracle
`res` abstracts its `processImage` call (`some url` resolves, `none`
rejects); success records the URL and marks completed (lines 247-253),
failure marks failed (lines 256-259). -/
def settleF (res : String → Option String) (im : Img) : Img :=
  match res im.original with
  | some url => { im with processed := some url, status := Status.completed }
  | none => { im with status := Status.failed }

def settleAt (res : String → Option String) (i : Nat) (imgs : List Img) : List Img :=
  updateAt i (settleF res) imgs

/-- The batching loop `for (let i = 0; i < pending.length; i += batchSize)
{ batch = pending.slice(i, i + batchSize); ... }`: the `j`-th wave is the
slice starting at `j * n`, and there are `ceil(length / n)` waves. -/
def chunksOf (n : Nat) (l : List α) : List (List α) :=
  (List.range ((l.length + n - 1) / n)).map fun i => (l.drop (i * n)).take n

/-- The bulk selection `pending = images.filter(img => !img.processed)`. -/
def pendingOf (imgs : List Img) : List Img :=
  imgs.filter fun im => im.processed == none

/-- The waves of one bulk run, each member resolved to its index in the
run's captured `images` array via
`images.findIndex(x => x.original === img.original)` (line 237; both of
the member's `setImages` updates use this index). -/
def bulkWaves (imgs0 : List Img) : List (List Nat) :=
  (chunksOf batchSize (pendingOf imgs0)).map fun batch =>
    batch.map fun im => imgs0.findIdx fun x => x.original == im.original

/-- An instant of the bulk run: the current images array, the members of
the wave currently inside `Promise.all` with their phases, and the waves
not yet started. -/
structure BulkCfg where
  imgs : List Img
  cur : List (Nat × WPhase)
  rest : List (List Nat)

/-- The state when `handleBulkProcess` starts: no wave running yet. -/
def initCfg (imgs0 : List Img) : BulkCfg :=
  ⟨imgs0, [], bulkWaves imgs0⟩

/-- Small-step semantics of the bulk run.  `await Promise.all(...)` means
the next wave starts only when every member of the current wave is done;
within a wave the two `setImages` updates of each member interleave
arbitrarily with other members'. -/
inductive BulkStep (res : String → Option String) : BulkCfg → BulkCfg → Prop where
  | nextWave (imgs : List Img) (cur : List (Nat × WPhase)) (w : List Nat)
      (rest : List (List Nat)) (hdone : ∀ m ∈ cur, m.2 = WPhase.done) :
      BulkStep res ⟨imgs, cur, w :: rest⟩
        ⟨imgs, w.map (fun i => (i, WPhase.notStarted)), rest⟩
  | mark (imgs : List Img) (pre : List (Nat × WPhase)) (i : Nat)
      (post : List (Nat × WPhase)) (rest : List (List Nat)) :
      BulkStep res ⟨imgs, pre ++ (i, WPhase.notStarted) :: post, rest⟩
        ⟨setProcessingAt i imgs, pre ++ (i, WPhase.processing) :: post, rest⟩
  | settle (imgs : List Img) (pre : List (Nat × WPhase)) (i : Nat)
      (post : List (Nat × WPhase)) (rest : List (List Nat)) :
      BulkStep res ⟨imgs, pre ++ (i, WPhase.processing) :: post, rest⟩
        ⟨settleAt res i imgs, pre ++ (i, WPhase.done) :: post, rest⟩

/-- Reachability of an instant during one bulk run. -/
def BulkReach (res : String → Option String) (c c' : BulkCfg) : Prop :=
  Relation.ReflTransGen (BulkStep res) c c'

/-- Indices of the current wave's members that are in their processing
phase. -/
def procIdxs (cur : List (Nat × WPhase)) : List Nat :=
  (cur.filter fun m => decide (m.2 = WPhase.processing)).map Prod.fst

/-- Positions of the images array whose job is in status `'processing'`. -/
def processingIdxs (imgs : List Img) : List Nat :=
  (List.range imgs.length).filter fun i =>
    match imgs[i]? with
    | some im => im.status == Status.processing
    | none => false

/-- The run invariant: the current wave has at most `batchSize` members,
every not-yet-started wave has at most `batchSize` members, and any
position holding a `'processing'` job belongs to a current-wave member in
its processing phase. -/
def BulkInv (cfg : BulkCfg) : Prop :=
  cfg.cur.length ≤ batchSize ∧
  (∀ w ∈ cfg.rest, w.length ≤ batchSize) ∧
  (∀ (i : Nat) (im : Img), cfg.imgs[i]? = some im →
    im.status = Status.processing → i ∈ procIdxs cfg.cur)

theorem chunksOf_length_le (n : Nat) (l : List α) (w : List α)
    (hw : w ∈ chunksOf n l) : w.length ≤ n := by
  simp only [chunksOf, List.mem_map, List.mem_range] at hw
  obtain ⟨i, _, rfl⟩ := hw
  simp [List.length_take]

theorem bulkWaves_length_le (imgs0 : List Img) (w : List Nat)
    (hw : w ∈ bulkWaves imgs0) : w.length ≤ batchSize := by
  simp only [bulkWaves, List.mem_map] at hw
  obtain ⟨batch, hb, rfl⟩ := hw
  simpa using chunksOf_length_le batchSize (pendingOf imgs0) batch hb

theorem mem_procIdxs_iff (j : Nat) (cur : List (Nat × WPhase)) :
    j ∈ procIdxs cur ↔ ∃ m ∈ cur, m.1 = j ∧ m.2 = WPhase.processing := by
  simp only [procIdxs, List.mem_map, List.mem_filter, decide_eq_true_eq]
  constructor
  · rintro ⟨m, ⟨hm, hph⟩, hfst⟩
    exact ⟨m, hm, hfst, hph⟩
  · rintro ⟨m, hm, hfst, hph⟩
    exact ⟨m, ⟨hm, hph⟩, hfst⟩

theorem mem_of_getElem?_some {l : List Img} {i : Nat} {a : Img}
    (h : l[i]? = some a) : a ∈ l := by
  rw [List.getElem?_eq_some] at h
  obtain ⟨hlt, rfl⟩ := h
  exact List.getElem_mem hlt

theorem bulkInv_init (imgs0 : List Img)
    (h : ∀ im ∈ imgs0, im.status ≠ Status.processing) : BulkInv (initCfg imgs0) := by
  refine ⟨by simp [initCfg, batchSize], ?_, ?_⟩
  · intro w hw
    exact bulkWaves_length_le imgs0 w hw
  · intro i im him hst
    exact absurd hst (h im (mem_of_getElem?_some him))

theorem bulkInv_step (res : String → Option String) (c c' : BulkCfg)
    (hs : BulkStep res c c') (h : BulkInv c) : BulkInv c' := by
  obtain ⟨hlen, hrest, hK⟩ := h
  cases hs with
  | nextWave imgs cur w rest hdone =>
    refine ⟨?_, ?_, ?_⟩
    · simpa using hrest w (List.mem_cons_self w rest)
    · intro w' hw'
      exact hrest w' (List.mem_cons_of_mem w hw')
    · intro i im him hst
      have hmem := hK i im him hst
      rw [mem_procIdxs_iff] at hmem
      obtain ⟨m, hm, _, hph⟩ := hmem
      rw [hdone m hm] at hph
      exact absurd hph (by simp)
  | mark imgs pre i post rest =>
    refine ⟨?_, ?_, ?_⟩
    · simpa using hlen
    · exact hrest
    · intro j im him hst
      rw [setProcessingAt, updateAt_getElem?] at him
      by_cases hji : j = i
      · subst hji
        rw [mem_procIdxs_iff]
        exact ⟨(j, WPhase.processing),
          List.mem_append_right _ (List.mem_cons_self _ _), rfl, rfl⟩
      · rw [if_neg hji] at him
        have hold := hK j im him hst
        rw [mem_procIdxs_iff] at hold
        obtain ⟨m, hm, hm1, hm2⟩ := hold
        rw [mem_procIdxs_iff]
        rcases List.mem_append.mp hm with hpre | hmid
        · exact ⟨m, List.mem_append_left _ hpre, hm1, hm2⟩
        · rcases List.mem_cons.mp hmid with heq | hpost
          · rw [heq] at hm2
            simp at hm2
          · exact ⟨m, List.mem_append_right _ (List.mem_cons_of_mem _ hpost), hm1, hm2⟩
  | settle imgs pre i post rest =>
    refine ⟨?_, ?_, ?_⟩
    · simpa using hlen
    · exact hrest
    · intro j im him hst
      rw [settleAt, updateAt_getElem?] at him
      by_cases hji : j = i
      · subst hji
        rw [if_pos rfl] at him
        cases hq : imgs[j]? with
        | none => rw [hq] at him; simp at him
        | some im0 =>
          rw [hq] at him
          simp at him
          rw [← him] at hst
          cases hr : res im0.original with
          | some url => simp [settleF, hr] at hst
          | none => simp [settleF, hr] at hst
      · rw [if_neg hji] at him
        have hold := hK j im him hst
        rw [mem_procIdxs_iff] at hold
        obtain ⟨m, hm, hm1, hm2⟩ := hold
        rw [mem_procIdxs_iff]
        rcases List.mem_append.mp hm with hpre | hmid
        · exact ⟨m, List.mem_append_left _ hpre, hm1, hm2⟩
        · rcases List.mem_cons.mp hmid with heq | hpost
          · rw [heq] at hm1
            exact absurd hm1.symm hji
          · exact ⟨m, List.mem_append_right _ (List.mem_cons_of_mem _ hpost), hm1, hm2⟩

theorem bulkInv_reach (res : String → Option String) (c c' : BulkCfg)
    (hr : BulkReach res c c') (h : BulkInv c) : BulkInv c' := by
  induction hr with
  | refl => exact h
  | tail hab hbc ih => exact bulkInv_step res _ _ hbc ih

theorem processingIdxs_subset (cfg : BulkCfg) (h : BulkInv cfg) :
    processingIdxs cfg.imgs ⊆ procIdxs cfg.cur := by
  intro j hj
  simp only [processingIdxs, List.mem_filter, List.mem_range] at hj
  obtain ⟨hlt, hq⟩ := hj
  cases hg : cfg.imgs[j]? with
  | none => rw [hg] at hq; simp at hq
  | some im =>
    rw [hg] at hq
    simp at hq
    exact h.2.2 j im hg hq

theorem processingIdxs_length_le (cfg : BulkCfg) (h : BulkInv cfg) :
    (processingIdxs cfg.imgs).length ≤ batchSize := by
  have hnd : (processingIdxs cfg.imgs).Nodup := (List.nodup_range _).filter _
  have hsp := hnd.subperm (processingIdxs_subset cfg h)
  have h1 := hsp.length_le
  have h2 : (procIdxs cfg.cur).length ≤ cfg.cur.length := by
    rw [procIdxs, List.length_map]
    exact (List.filter_sublist _).length_le
  have h3 := h.1
  omega

theorem countP_processing_eq : ∀ imgs : List Img,
    imgs.countP (fun im => im.status == Status.processing) =
      (processingIdxs imgs).length := by
  intro imgs
  induction imgs with
  | nil => rfl
  | cons im rest ih =>
    have hcomp : (fun i => (match (im :: rest)[i]? with
          | some x => x.status == Status.processing
          | none => false : Bool)) ∘ Nat.succ =
        (fun i => (match rest[i]? with
          | some x => x.status == Status.processing
          | none => false : Bool)) := by
      funext i
      simp [Function.comp, List.getElem?_cons_succ]
    simp only [processingIdxs, List.length_cons, List.range_succ_eq_map,
      List.filter_cons, List.countP_cons, List.filter_map, hcomp]
    cases hb : (im.status == Status.processing) with
    | true => simp [hb, ih, processingIdxs]
    | false => simp [hb, ih, processingIdxs]

/-- Claim C4: during one bulk run over the selected (unprocessed) jobs,
the selection is partitioned into waves of at most `batchSize` (= 2)
members, a wave starts only when every member of the previous wave has
reached a terminal update (the `await Promise.all` boundary, built into
`BulkStep.nextWave`), and at every reachable instant at most `batchSize`
jobs are in status `'processing'` (provided no job is already
`'processing'` when the run starts — only the bulk run itself marks jobs
`'processing'`). -/
theorem batch_bounded_concurrency (res : String → Option String) (imgs0 : List Img)
    (cfg : BulkCfg) (w : List Nat)
    (hstart : ∀ im ∈ imgs0, im.status ≠ Status.processing)
    (hreach : BulkReach res (initCfg imgs0) cfg) :
    (w ∈ bulkWaves imgs0 → w.length ≤ batchSize) ∧
    cfg.imgs.countP (fun im => im.status == Status.processing) ≤ batchSize := by
  have hinv := bulkInv_reach res _ _ hreach (bulkInv_init imgs0 hstart)
  refine ⟨fun hw => bulkWaves_length_le imgs0 w hw, ?_⟩
  rw [countP_processing_eq]
  exact processingIdxs_length_le cfg hinv

/-- Witness for C4 at a singleton worklist and the initial instant. -/
theorem batch_bounded_concurrency_witness :
    ([0] ∈ bulkWaves [initialJob] → ([0] : List Nat).length ≤ batchSize) ∧
    (initCfg [initialJob]).imgs.countP
      (fun im => im.status == Status.processing) ≤ batchSize :=
  batch_bounded_concurrency (fun _ => some "url:done") [initialJob]
    (initCfg [initialJob]) [0] (by decide) Relation.ReflTransGen.refl
